import Mathlib

/-!
Verification development for the Mole Attack whack-a-mole game
(`src/main.py`).  The session state machine of `run_game`, the board
layout of `create_holes`, the `Mole` entity, and the difficulty/theme
lookup tables are embedded shallowly below; timestamps are integral
milliseconds, pygame rectangles are explicit records, and the only
randomness — `random.choice(mole_list)` — is modelled by the chosen
index arriving as a per-frame input.
-/

namespace MoleAttack

/-! ## Window / grid configuration (module-level constants) -/

def WINDOW_WIDTH : Nat := 800
def WINDOW_HEIGHT : Nat := 600
def GRID_ROWS : Nat := 3
def GRID_COLS : Nat := 3

/-! ## Difficulty presets

`DIFFICULTIES` is a dict from the name to
`(mole_visible_ms, spawn_interval_ms, game_length_seconds)`.
`run_game` indexes it with plain `[...]`, so an absent key raises
`KeyError`; the lookup is therefore embedded as an `Option`, with
`none` standing for the raised exception. -/

structure DifficultyPreset where
  mole_visible_ms : Int
  spawn_interval_ms : Int
  game_length_seconds : Int
deriving DecidableEq

def DIFFICULTIES_find (name : String) : Option DifficultyPreset :=
  if name = "Easy" then some ⟨1200, 900, 30⟩
  else if name = "Medium" then some ⟨900, 700, 25⟩
  else if name = "Hard" then some ⟨650, 550, 20⟩
  else none

/-! ## Theme presets

Only the static, pure part of a theme entry is embedded (paths and
descriptors); the runtime surfaces are filled in by pygame and carry no
logic.  `THEMES.get(theme_name, THEMES["Default"])` is embedded as
`THEMES_get`. -/

structure ThemeSkin where
  bg_type : String
  bg_colors : (Nat × Nat × Nat) × (Nat × Nat × Nat)
  bg_image_path : Option String
  bg_music_path : Option String
  mole_image_path : Option String
  hole_image_path : Option String
deriving DecidableEq

def themeDefault : ThemeSkin :=
  { bg_type := "gradient"
    bg_colors := ((10, 70, 50), (230, 140, 70))
    bg_image_path := none
    bg_music_path := some "assets/sounds/bg_music.mp3"
    mole_image_path := none
    hole_image_path := none }

def themeJungle : ThemeSkin :=
  { bg_type := "image"
    bg_colors := ((10, 60, 40), (40, 100, 60))
    bg_image_path := some "assets/images/jungle_bg.png"
    bg_music_path := some "assets/sounds/jungle_bg.mp3"
    mole_image_path := some "assets/images/jungle_mole.png"
    hole_image_path := some "assets/images/jungle_hole.png" }

def themeBeach : ThemeSkin :=
  { bg_type := "image"
    bg_colors := ((30, 140, 200), (240, 220, 160))
    bg_image_path := some "assets/images/beach_bg.png"
    bg_music_path := some "assets/sounds/beach_bg.mp3"
    mole_image_path := some "assets/images/beach_mole.png"
    hole_image_path := some "assets/images/beach_hole.png" }

def themeDesert : ThemeSkin :=
  { bg_type := "image"
    bg_colors := ((180, 140, 80), (240, 200, 130))
    bg_image_path := some "assets/images/desert_bg.png"
    bg_music_path := some "assets/sounds/desert_bg.mp3"
    mole_image_path := some "assets/images/desert_mole.png"
    hole_image_path := some "assets/images/desert_hole.png" }

def THEMES_find (name : String) : Option ThemeSkin :=
  if name = "Default" then some themeDefault
  else if name = "Jungle" then some themeJungle
  else if name = "Beach" then some themeBeach
  else if name = "Desert" then some themeDesert
  else none

def THEMES_get (name : String) : ThemeSkin :=
  (THEMES_find name).getD themeDefault

/-! ## pygame rectangles

`pygame.Rect` hit detection: `collidepoint` treats the right and bottom
edges as outside (half-open on both axes). -/

structure Rect where
  left : Int
  top : Int
  width : Int
  height : Int
deriving DecidableEq

def Rect.collidepoint (rc : Rect) (px py : Int) : Bool :=
  (rc.left ≤ px && px < rc.left + rc.width) &&
  (rc.top ≤ py && py < rc.top + rc.height)

/-! ## Mole entity

`Mole.__init__` builds a surface of size `(2r, 2r)` (the sprite path
scales the image to the same size), so `self.rect` is the square of
side `2r` centred on the hole position: `get_rect(center=pos)` puts
`left = x - (2r)//2 = x - r` and `top = y - r`. -/

structure Mole where
  posX : Int
  posY : Int
  base_radius : Int
  visible_ms : Int
  active : Bool
  spawn_time : Int
deriving DecidableEq

def Mole.rect (m : Mole) : Rect :=
  { left := m.posX - m.base_radius
    top := m.posY - m.base_radius
    width := 2 * m.base_radius
    height := 2 * m.base_radius }

def Mole.mk' (pos : Nat × Nat) (radius : Nat) (visibleMs : Int) : Mole :=
  { posX := pos.1, posY := pos.2, base_radius := radius
    visible_ms := visibleMs, active := false, spawn_time := 0 }

def Mole.activate (m : Mole) (nowMs : Int) : Mole :=
  { m with active := true, spawn_time := nowMs }

def Mole.deactivate (m : Mole) : Mole :=
  { m with active := false }

def Mole.update (m : Mole) (nowMs : Int) : Mole :=
  if m.active && decide (nowMs - m.spawn_time > m.visible_ms)
  then m.deactivate else m

/-! ## Board layout (`create_holes`) -/

def create_holes : List (Nat × Nat) × Nat :=
  let margin_x := WINDOW_WIDTH / 8
  let margin_y := WINDOW_HEIGHT / 6
  let available_width := WINDOW_WIDTH - 2 * margin_x
  let available_height := WINDOW_HEIGHT - 2 * margin_y
  let cell_w := available_width / GRID_COLS
  let cell_h := available_height / GRID_ROWS
  let positions :=
    (List.range GRID_ROWS).flatMap fun row =>
      (List.range GRID_COLS).map fun col =>
        (margin_x + cell_w * col + cell_w / 2, margin_y + cell_h * row + cell_h / 2)
  (positions, min cell_w cell_h / 3)

/-! ## Exit button

`compute_exit_button_rect` sizes the rectangle from the rendered text
plus fixed padding and anchors its top-right corner at
`(WINDOW_WIDTH - 10, 70)`.  The rendered text size depends on the font
subsystem, so the final width and height are session parameters. -/

structure Config where
  mole_visible_ms : Int
  spawn_interval_ms : Int
  game_length_seconds : Int
  exitW : Int
  exitH : Int
deriving DecidableEq

def compute_exit_button_rect (cfg : Config) : Rect :=
  { left := (WINDOW_WIDTH : Int) - 10 - cfg.exitW
    top := 70
    width := cfg.exitW
    height := cfg.exitH }

/-! ## Session state (the locals of `run_game`) -/

structure GameState where
  moles : List Mole
  score : Int
  lives : Int
  last_spawn_time : Int
  active_mole : Option Nat
  game_over : Bool
  start_time_ms : Int
  musicStopped : Bool
  gameOverCuePlays : Nat
  hitCuePlays : Nat
deriving DecidableEq

def initState (moles : List Mole) (startMs : Int) : GameState :=
  { moles := moles, score := 0, lives := 3, last_spawn_time := 0
    active_mole := none, game_over := false, start_time_ms := startMs
    musicStopped := false, gameOverCuePlays := 0, hitCuePlays := 0 }

def initialMoles (visibleMs : Int) : List Mole :=
  create_holes.1.map fun p => Mole.mk' p create_holes.2 visibleMs

/-! ## Remaining time

`remaining_s = max(0, int(game_length_seconds - elapsed_s))` where
`elapsed_s = (now_ms - start_time_ms) / 1000.0`.  Python `int()`
truncates toward zero; the exact value truncated is
`(1000 * L - d) / 1000`. -/

def truncTowardZero (num den : Int) : Int :=
  if 0 ≤ num then ((num.toNat / den.toNat : Nat) : Int)
  else -((((-num).toNat / den.toNat : Nat) : Int))

def remaining_s (gameLengthSeconds elapsedMs : Int) : Int :=
  max 0 (truncTowardZero (1000 * gameLengthSeconds - elapsedMs) 1000)

/-! ## Per-frame input and step results

A frame samples the clock once (`now_ms`), drains the event queue, and
— when the spawn condition fires — consumes one uniformly random index
from `random.choice(mole_list)`; that index is the `choice` field.
`QUIT` terminates the whole process and is outside the session model;
events of any other type are `other`. -/

inductive GEvent where
  | mouseDown (px py : Int)
  | keyEscape
  | other
deriving DecidableEq

structure FrameInput where
  now : Int
  events : List GEvent
  choice : Nat
deriving DecidableEq

inductive StepResult where
  | cont (s : GameState)
  | ret (s : GameState)
deriving DecidableEq

def StepResult.state : StepResult → GameState
  | .cont s => s
  | .ret s => s

/-! ## In-place update of one list element (Python mutates the object
held by the list, so the list contents change at that index). -/

def listModify (f : Mole → Mole) : Nat → List Mole → List Mole
  | _, [] => []
  | 0, m :: ms => f m :: ms
  | n + 1, m :: ms => m :: listModify f n ms

/-! ## Hit scan

`for mole in mole_list: if mole.active and mole.rect.collidepoint(...)`
— first match in creation order, `break` afterwards. -/

def hitScan (px py : Int) : List Mole → Option Nat
  | [] => none
  | m :: ms =>
    if m.active && (Mole.rect m).collidepoint px py then some 0
    else (hitScan px py ms).map (· + 1)

/-! ## Event handling

Order within `run_game`'s event loop: exit-button test first (works
even when game over), then the mole hit scan (only while running, a
miss decrements `lives` with no floor), and an `ESC` key press returns
to the menu from any state. -/

def handleMouseDown (cfg : Config) (s : GameState) (px py : Int) : StepResult :=
  if (compute_exit_button_rect cfg).collidepoint px py then .ret s
  else if !s.game_over then
    match hitScan px py s.moles with
    | some i =>
      .cont { s with score := s.score + 1
                     moles := listModify Mole.deactivate i s.moles
                     hitCuePlays := s.hitCuePlays + 1 }
    | none => .cont { s with lives := s.lives - 1 }
  else .cont s

def handleEvents (cfg : Config) (s : GameState) : List GEvent → StepResult
  | [] => .cont s
  | GEvent.keyEscape :: _ => .ret s
  | GEvent.other :: rest => handleEvents cfg s rest
  | GEvent.mouseDown px py :: rest =>
    match handleMouseDown cfg s px py with
    | .ret s' => .ret s'
    | .cont s' => handleEvents cfg s' rest

/-! ## Spawning -/

def deactivateActive (s : GameState) : List Mole :=
  match s.active_mole with
  | some i => listModify Mole.deactivate i s.moles
  | none => s.moles

def spawn_new_mole (cfg : Config) (nowMs : Int) (choice : Nat) (s : GameState) : GameState :=
  let ms2 := listModify
    (fun m => Mole.activate { m with visible_ms := cfg.mole_visible_ms } nowMs)
    choice (deactivateActive s)
  { s with moles := ms2, active_mole := some choice }

def spawnPhase (cfg : Config) (nowMs : Int) (choice : Nat) (s : GameState) : GameState :=
  if !s.game_over && decide (nowMs - s.last_spawn_time > cfg.spawn_interval_ms) then
    { spawn_new_mole cfg nowMs choice s with last_spawn_time := nowMs }
  else s

/-! ## Terminal check and expiry tick -/

def terminalCheck (cfg : Config) (nowMs : Int) (s : GameState) : GameState :=
  if (remaining_s cfg.game_length_seconds (nowMs - s.start_time_ms) ≤ 0 ∨ s.lives ≤ 0)
      ∧ s.game_over = false then
    { s with game_over := true, musicStopped := true
             gameOverCuePlays := s.gameOverCuePlays + 1 }
  else s

def tickPhase (nowMs : Int) (s : GameState) : GameState :=
  { s with moles := s.moles.map (fun m => m.update nowMs) }

/-! ## One frame of the game loop

The loop body in order: compute remaining time and run the game-over
check, process the event queue (a `return` abandons the rest of the
frame), then the spawn condition, then `moles.update(now_ms)`. -/

def frameStep (cfg : Config) (s : GameState) (inp : FrameInput) : StepResult :=
  match handleEvents cfg (terminalCheck cfg inp.now s) inp.events with
  | .ret s' => .ret s'
  | .cont s' => .cont (tickPhase inp.now (spawnPhase cfg inp.now inp.choice s'))

def runFrames (cfg : Config) (s : GameState) : List FrameInput → StepResult
  | [] => .cont s
  | f :: fs =>
    match frameStep cfg s f with
    | .ret s' => .ret s'
    | .cont s' => runFrames cfg s' fs

/-! ## Session start (`run_game` lines 291-297)

`DIFFICULTIES[difficulty_name]` raises `KeyError` on an unknown name —
modelled by `none` — while the theme is looked up with
`THEMES.get(theme_name, THEMES["Default"])`, which never fails. -/

structure SessionInit where
  preset : DifficultyPreset
  theme : ThemeSkin
  positions : List (Nat × Nat)
  hole_radius : Nat
deriving DecidableEq

def sessionStart (difficulty_name theme_name : String) : Option SessionInit :=
  match DIFFICULTIES_find difficulty_name with
  | none => none
  | some p =>
    some { preset := p, theme := THEMES_get theme_name
           positions := create_holes.1, hole_radius := create_holes.2 }

/-! ## Concrete data shared by witnesses and counterexamples -/

def cfgEasy : Config :=
  { mole_visible_ms := 1200, spawn_interval_ms := 900
    game_length_seconds := 30, exitW := 64, exitH := 40 }

def sInit : GameState := initState (initialMoles 1200) 0

def sOneActive : GameState :=
  (runFrames cfgEasy sInit [⟨1000, [], 4⟩]).state

def sGameOverEx : GameState := { sInit with game_over := true }

def mole4Active : Mole :=
  { posX := 400, posY := 299, base_radius := 44, visible_ms := 1200
    active := true, spawn_time := 1000 }

/-! ## Derived notions used by the statements and proofs -/

/-- Number of primary pointer presses in one frame's event batch. -/
def pressCount : List GEvent → Nat
  | [] => 0
  | GEvent.mouseDown _ _ :: rest => pressCount rest + 1
  | _ :: rest => pressCount rest

/-- Between two mole lists: every mole active in the second was already
active, at the same index, in the first (no activation happened). -/
def noNewActive (l l' : List Mole) : Prop :=
  ∀ (j : Nat) (m : Mole), l'[j]? = some m → m.active = true →
    ∃ m0 : Mole, l[j]? = some m0 ∧ m0.active = true

/-- What the event-handling phase can do to the session state: it never
touches the game-over flag, the active-mole reference, the spawn clock,
the session start time or the terminal side effects, never raises
`lives`, and never activates a mole. -/
def evStep (s t : GameState) : Prop :=
  t.game_over = s.game_over ∧ t.active_mole = s.active_mole ∧
  t.last_spawn_time = s.last_spawn_time ∧ t.start_time_ms = s.start_time_ms ∧
  t.musicStopped = s.musicStopped ∧ t.gameOverCuePlays = s.gameOverCuePlays ∧
  t.lives ≤ s.lives ∧ t.moles.length = s.moles.length ∧
  noNewActive s.moles t.moles

/-- Any mole whose `active` flag is set is the one referenced by
`active_mole` (hence at most one mole is active at a time). -/
def ActiveRefInv (s : GameState) : Prop :=
  ∀ (i : Nat) (m : Mole), s.moles[i]? = some m → m.active = true →
    s.active_mole = some i

/-- The terminal side effects (ambient music stopped, game-over cue)
have fired exactly once if the state is game over, and not at all
otherwise. -/
def CueInv (s : GameState) : Prop :=
  s.gameOverCuePlays = (if s.game_over then 1 else 0) ∧
  s.musicStopped = s.game_over

/-! ## Helper lemmas: list modification -/

theorem listModify_length (f : Mole → Mole) (i : Nat) (l : List Mole) :
    (listModify f i l).length = l.length := by
  induction l generalizing i with
  | nil => cases i <;> rfl
  | cons m ms ih =>
    cases i with
    | zero => rfl
    | succ n => simp [listModify, ih n]

theorem getElem?_listModify (f : Mole → Mole) (i j : Nat) (l : List Mole) :
    (listModify f i l)[j]? = if j = i then (l[j]?).map f else l[j]? := by
  induction l generalizing i j with
  | nil => simp [listModify]
  | cons m ms ih =>
    cases i with
    | zero =>
      cases j with
      | zero => simp [listModify]
      | succ k => simp [listModify]
    | succ n =>
      cases j with
      | zero => simp [listModify]
      | succ k => simp [listModify, ih n k]

/-! ## Helper lemmas: hit scan -/

theorem hitScan_some (px py : Int) (l : List Mole) (i : Nat)
    (h : hitScan px py l = some i) :
    (∃ m : Mole, l[i]? = some m ∧ (m.active && (Mole.rect m).collidepoint px py) = true) ∧
    ∀ (j : Nat) (m : Mole), j < i → l[j]? = some m →
      (m.active && (Mole.rect m).collidepoint px py) = false := by
  induction l generalizing i with
  | nil => simp [hitScan] at h
  | cons m ms ih =>
    by_cases hm : (m.active && (Mole.rect m).collidepoint px py) = true
    · rw [hitScan, if_pos hm] at h
      obtain rfl : (0 : Nat) = i := by injection h
      exact ⟨⟨m, by simp, hm⟩, fun j mm hj _ => absurd hj (Nat.not_lt_zero j)⟩
    · rw [hitScan, if_neg hm] at h
      cases hms : hitScan px py ms with
      | none => rw [hms] at h; simp at h
      | some k =>
        rw [hms] at h
        obtain rfl : k + 1 = i := by injection h
        obtain ⟨⟨mw, hmw, hmwact⟩, hmin⟩ := ih k hms
        refine ⟨⟨mw, by simpa using hmw, hmwact⟩, ?_⟩
        intro j mm hj hget
        cases j with
        | zero =>
          simp at hget
          subst hget
          exact Bool.eq_false_iff.mpr hm
        | succ j' =>
          simp at hget
          exact hmin j' mm (Nat.lt_of_succ_lt_succ hj) hget

theorem hitScan_none (px py : Int) (l : List Mole)
    (h : hitScan px py l = none) :
    ∀ (j : Nat) (m : Mole), l[j]? = some m →
      (m.active && (Mole.rect m).collidepoint px py) = false := by
  induction l with
  | nil => intro j m hget; simp at hget
  | cons m ms ih =>
    by_cases hm : (m.active && (Mole.rect m).collidepoint px py) = true
    · rw [hitScan, if_pos hm] at h; exact absurd h (by simp)
    · rw [hitScan, if_neg hm] at h
      cases hms : hitScan px py ms with
      | none =>
        intro j mm hget
        cases j with
        | zero => simp at hget; subst hget; exact Bool.eq_false_iff.mpr hm
        | succ j' => simp at hget; exact ih hms j' mm hget
      | some k => rw [hms] at h; simp at h

/-! ## Helper lemmas: no-new-activation relation -/

theorem noNewActive_refl (l : List Mole) : noNewActive l l :=
  fun _ m hget hact => ⟨m, hget, hact⟩

theorem noNewActive_trans {l1 l2 l3 : List Mole}
    (h12 : noNewActive l1 l2) (h23 : noNewActive l2 l3) : noNewActive l1 l3 := by
  intro j m hget hact
  obtain ⟨m2, hget2, hact2⟩ := h23 j m hget hact
  exact h12 j m2 hget2 hact2

theorem noNewActive_listModify_deactivate (l : List Mole) (i : Nat) :
    noNewActive l (listModify Mole.deactivate i l) := by
  intro j m hget hact
  rw [getElem?_listModify] at hget
  by_cases hji : j = i
  · rw [if_pos hji] at hget
    cases hl : l[j]? with
    | none => rw [hl] at hget; simp at hget
    | some m0 =>
      rw [hl] at hget
      simp [Mole.deactivate] at hget
      rw [← hget] at hact
      simp at hact
  · rw [if_neg hji] at hget
    exact ⟨m, hget, hact⟩

theorem noNewActive_map_update (l : List Mole) (nowMs : Int) :
    noNewActive l (l.map (fun m => m.update nowMs)) := by
  intro j m hget hact
  rw [List.getElem?_map] at hget
  cases hl : l[j]? with
  | none => rw [hl] at hget; simp at hget
  | some m0 =>
    rw [hl] at hget
    simp at hget
    refine ⟨m0, rfl, ?_⟩
    rw [← hget] at hact
    unfold Mole.update at hact
    by_cases hc : (m0.active && decide (nowMs - m0.spawn_time > m0.visible_ms)) = true
    · rw [if_pos hc] at hact; simp [Mole.deactivate] at hact
    · rw [if_neg hc] at hact; exact hact

/-! ## Helper lemmas: the event-handling phase -/

theorem handleMouseDown_cases (cfg : Config) (s : GameState) (px py : Int) :
    handleMouseDown cfg s px py = .ret s ∨
    handleMouseDown cfg s px py = .cont s ∨
    (s.game_over = false ∧ ∃ i : Nat, hitScan px py s.moles = some i ∧
      handleMouseDown cfg s px py =
        .cont { s with score := s.score + 1
                       moles := listModify Mole.deactivate i s.moles
                       hitCuePlays := s.hitCuePlays + 1 }) ∨
    (s.game_over = false ∧ hitScan px py s.moles = none ∧
      handleMouseDown cfg s px py = .cont { s with lives := s.lives - 1 }) := by
  unfold handleMouseDown
  by_cases hexit : (compute_exit_button_rect cfg).collidepoint px py = true
  · left; rw [if_pos hexit]
  · rw [if_neg hexit]
    cases hgo : s.game_over with
    | true => right; left; simp [hgo]
    | false =>
      cases hscan : hitScan px py s.moles with
      | some i =>
        right; right; left
        refine ⟨rfl, i, rfl, ?_⟩
        simp
      | none =>
        right; right; right
        refine ⟨rfl, rfl, ?_⟩
        simp

theorem evStep_refl (s : GameState) : evStep s s :=
  ⟨rfl, rfl, rfl, rfl, rfl, rfl, le_refl _, rfl, noNewActive_refl _⟩

theorem evStep_trans {s t u : GameState} (h1 : evStep s t) (h2 : evStep t u) :
    evStep s u := by
  obtain ⟨a1, b1, c1, d1, e1, f1, g1, h1', i1⟩ := h1
  obtain ⟨a2, b2, c2, d2, e2, f2, g2, h2', i2⟩ := h2
  exact ⟨a2.trans a1, b2.trans b1, c2.trans c1, d2.trans d1, e2.trans e1,
    f2.trans f1, g2.trans g1, h2'.trans h1', noNewActive_trans i1 i2⟩

theorem handleMouseDown_evStep (cfg : Config) (s : GameState) (px py : Int) :
    evStep s ((handleMouseDown cfg s px py).state) := by
  rcases handleMouseDown_cases cfg s px py with h | h | ⟨_, i, _, h⟩ | ⟨_, _, h⟩
  · rw [h]; exact evStep_refl s
  · rw [h]; exact evStep_refl s
  · rw [h]
    refine ⟨rfl, rfl, rfl, rfl, rfl, rfl, le_refl _, ?_, ?_⟩
    · exact listModify_length _ _ _
    · exact noNewActive_listModify_deactivate _ _
  · rw [h]
    exact ⟨rfl, rfl, rfl, rfl, rfl, rfl, by show s.lives - 1 ≤ s.lives; omega,
      rfl, noNewActive_refl _⟩

theorem handleMouseDown_lives_lb (cfg : Config) (s : GameState) (px py : Int) :
    s.lives - 1 ≤ ((handleMouseDown cfg s px py).state).lives := by
  rcases handleMouseDown_cases cfg s px py with h | h | ⟨_, i, _, h⟩ | ⟨_, _, h⟩
  · rw [h]; show s.lives - 1 ≤ s.lives; omega
  · rw [h]; show s.lives - 1 ≤ s.lives; omega
  · rw [h]; show s.lives - 1 ≤ s.lives; omega
  · rw [h]; show s.lives - 1 ≤ s.lives - 1; omega

theorem handleMouseDown_frozen (cfg : Config) (s : GameState) (px py : Int)
    (hgo : s.game_over = true) :
    handleMouseDown cfg s px py = .ret s ∨ handleMouseDown cfg s px py = .cont s := by
  rcases handleMouseDown_cases cfg s px py with h | h | ⟨hf, _, _, _⟩ | ⟨hf, _, _⟩
  · exact Or.inl h
  · exact Or.inr h
  · rw [hgo] at hf; exact absurd hf (by simp)
  · rw [hgo] at hf; exact absurd hf (by simp)

theorem handleEvents_evStep (cfg : Config) (evs : List GEvent) :
    ∀ s : GameState, evStep s ((handleEvents cfg s evs).state) := by
  induction evs with
  | nil => intro s; exact evStep_refl s
  | cons e rest ih =>
    intro s
    cases e with
    | keyEscape => exact evStep_refl s
    | other => exact ih s
    | mouseDown px py =>
      rw [handleEvents]
      cases hmd : handleMouseDown cfg s px py with
      | ret s' =>
        have := handleMouseDown_evStep cfg s px py
        rw [hmd] at this
        exact this
      | cont s' =>
        have h1 := handleMouseDown_evStep cfg s px py
        rw [hmd] at h1
        exact evStep_trans h1 (ih s')

theorem handleEvents_lives_lb (cfg : Config) (evs : List GEvent) :
    ∀ s : GameState,
      s.lives - (pressCount evs : Int) ≤ ((handleEvents cfg s evs).state).lives := by
  induction evs with
  | nil => intro s; simp [handleEvents, StepResult.state, pressCount]
  | cons e rest ih =>
    intro s
    cases e with
    | keyEscape => simp [handleEvents, StepResult.state, pressCount]
    | other => simpa [handleEvents, pressCount] using ih s
    | mouseDown px py =>
      rw [handleEvents]
      have hlb := handleMouseDown_lives_lb cfg s px py
      cases hmd : handleMouseDown cfg s px py with
      | ret s' =>
        rw [hmd] at hlb
        simp only [StepResult.state] at hlb ⊢
        simp [pressCount]
        omega
      | cont s' =>
        rw [hmd] at hlb
        simp only [StepResult.state] at hlb
        have := ih s'
        simp only [pressCount]
        push_cast
        omega

theorem handleEvents_frozen (cfg : Config) (evs : List GEvent) :
    ∀ s : GameState, s.game_over = true → (handleEvents cfg s evs).state = s := by
  induction evs with
  | nil => intro s _; rfl
  | cons e rest ih =>
    intro s hgo
    cases e with
    | keyEscape => rfl
    | other => exact ih s hgo
    | mouseDown px py =>
      rw [handleEvents]
      rcases handleMouseDown_frozen cfg s px py hgo with h | h <;> rw [h]
      · rfl
      · exact ih s hgo

/-! ## Helper lemmas: terminal check -/

theorem terminalCheck_cases (cfg : Config) (nowMs : Int) (s : GameState) :
    terminalCheck cfg nowMs s = s ∨
    ((remaining_s cfg.game_length_seconds (nowMs - s.start_time_ms) ≤ 0 ∨ s.lives ≤ 0) ∧
      s.game_over = false ∧
      terminalCheck cfg nowMs s =
        { s with game_over := true, musicStopped := true
                 gameOverCuePlays := s.gameOverCuePlays + 1 }) := by
  unfold terminalCheck
  by_cases hc : (remaining_s cfg.game_length_seconds (nowMs - s.start_time_ms) ≤ 0 ∨
      s.lives ≤ 0) ∧ s.game_over = false
  · right; exact ⟨hc.1, hc.2, by rw [if_pos hc]⟩
  · left; rw [if_neg hc]

theorem terminalCheck_fields (cfg : Config) (nowMs : Int) (s : GameState) :
    (terminalCheck cfg nowMs s).moles = s.moles ∧
    (terminalCheck cfg nowMs s).lives = s.lives ∧
    (terminalCheck cfg nowMs s).score = s.score ∧
    (terminalCheck cfg nowMs s).active_mole = s.active_mole ∧
    (terminalCheck cfg nowMs s).last_spawn_time = s.last_spawn_time ∧
    (terminalCheck cfg nowMs s).start_time_ms = s.start_time_ms := by
  rcases terminalCheck_cases cfg nowMs s with h | ⟨-, -, h⟩ <;> rw [h] <;>
    exact ⟨rfl, rfl, rfl, rfl, rfl, rfl⟩

theorem terminalCheck_frozen (cfg : Config) (nowMs : Int) (s : GameState)
    (h : s.game_over = true) : terminalCheck cfg nowMs s = s := by
  rcases terminalCheck_cases cfg nowMs s with h' | ⟨-, hgo, -⟩
  · exact h'
  · rw [h] at hgo; exact absurd hgo (by simp)

theorem terminalCheck_fires (cfg : Config) (nowMs : Int) (s : GameState)
    (h : remaining_s cfg.game_length_seconds (nowMs - s.start_time_ms) ≤ 0 ∨
      s.lives ≤ 0) :
    (terminalCheck cfg nowMs s).game_over = true := by
  unfold terminalCheck
  cases hgo : s.game_over with
  | true => rw [if_neg (by simp [hgo])]; exact hgo
  | false => rw [if_pos ⟨h, rfl⟩]

theorem terminalCheck_CueInv (cfg : Config) (nowMs : Int) (s : GameState)
    (h : CueInv s) : CueInv (terminalCheck cfg nowMs s) := by
  obtain ⟨h1, h2⟩ := h
  rcases terminalCheck_cases cfg nowMs s with heq | ⟨-, hgo, heq⟩
  · rw [heq]; exact ⟨h1, h2⟩
  · rw [heq]
    rw [hgo] at h1
    simp at h1
    exact ⟨by show s.gameOverCuePlays + 1 = if true then 1 else 0; simp [h1], rfl⟩

/-! ## Helper lemmas: spawn phase -/

theorem spawn_new_mole_fields (cfg : Config) (nowMs : Int) (choice : Nat)
    (s : GameState) :
    (spawn_new_mole cfg nowMs choice s).score = s.score ∧
    (spawn_new_mole cfg nowMs choice s).lives = s.lives ∧
    (spawn_new_mole cfg nowMs choice s).game_over = s.game_over ∧
    (spawn_new_mole cfg nowMs choice s).start_time_ms = s.start_time_ms ∧
    (spawn_new_mole cfg nowMs choice s).musicStopped = s.musicStopped ∧
    (spawn_new_mole cfg nowMs choice s).gameOverCuePlays = s.gameOverCuePlays ∧
    (spawn_new_mole cfg nowMs choice s).hitCuePlays = s.hitCuePlays ∧
    (spawn_new_mole cfg nowMs choice s).active_mole = some choice := by
  exact ⟨rfl, rfl, rfl, rfl, rfl, rfl, rfl, rfl⟩

theorem spawnPhase_cases (cfg : Config) (nowMs : Int) (choice : Nat) (s : GameState) :
    (s.game_over = false ∧ nowMs - s.last_spawn_time > cfg.spawn_interval_ms ∧
      spawnPhase cfg nowMs choice s =
        { spawn_new_mole cfg nowMs choice s with last_spawn_time := nowMs }) ∨
    ((s.game_over = true ∨ nowMs - s.last_spawn_time ≤ cfg.spawn_interval_ms) ∧
      spawnPhase cfg nowMs choice s = s) := by
  unfold spawnPhase
  cases hgo : s.game_over with
  | true => right; exact ⟨Or.inl rfl, by simp⟩
  | false =>
    by_cases ht : nowMs - s.last_spawn_time > cfg.spawn_interval_ms
    · left; exact ⟨rfl, ht, by simp [ht]⟩
    · right; exact ⟨Or.inr (not_lt.mp ht), by simp [ht]⟩

theorem spawnPhase_fields (cfg : Config) (nowMs : Int) (choice : Nat) (s : GameState) :
    (spawnPhase cfg nowMs choice s).game_over = s.game_over ∧
    (spawnPhase cfg nowMs choice s).lives = s.lives ∧
    (spawnPhase cfg nowMs choice s).score = s.score ∧
    (spawnPhase cfg nowMs choice s).musicStopped = s.musicStopped ∧
    (spawnPhase cfg nowMs choice s).gameOverCuePlays = s.gameOverCuePlays ∧
    (spawnPhase cfg nowMs choice s).start_time_ms = s.start_time_ms ∧
    (spawnPhase cfg nowMs choice s).hitCuePlays = s.hitCuePlays := by
  rcases spawnPhase_cases cfg nowMs choice s with ⟨-, -, h⟩ | ⟨-, h⟩ <;> rw [h] <;>
    exact ⟨rfl, rfl, rfl, rfl, rfl, rfl, rfl⟩

/-! ## Helper lemmas: tick phase -/

theorem tickPhase_evStep (nowMs : Int) (s : GameState) : evStep s (tickPhase nowMs s) :=
  ⟨rfl, rfl, rfl, rfl, rfl, rfl, le_refl _, by simp [tickPhase],
    noNewActive_map_update _ _⟩

theorem tickPhase_fields (nowMs : Int) (s : GameState) :
    (tickPhase nowMs s).game_over = s.game_over ∧
    (tickPhase nowMs s).lives = s.lives ∧
    (tickPhase nowMs s).score = s.score ∧
    (tickPhase nowMs s).active_mole = s.active_mole ∧
    (tickPhase nowMs s).musicStopped = s.musicStopped ∧
    (tickPhase nowMs s).gameOverCuePlays = s.gameOverCuePlays ∧
    (tickPhase nowMs s).last_spawn_time = s.last_spawn_time ∧
    (tickPhase nowMs s).start_time_ms = s.start_time_ms :=
  ⟨rfl, rfl, rfl, rfl, rfl, rfl, rfl, rfl⟩

/-! ## Helper lemmas: the active-mole reference invariant -/

theorem ActiveRefInv_of_evStep {s t : GameState} (h : evStep s t)
    (hs : ActiveRefInv s) : ActiveRefInv t := by
  obtain ⟨-, ham, -, -, -, -, -, -, hnna⟩ := h
  intro i m hget hact
  obtain ⟨m0, hget0, hact0⟩ := hnna i m hget hact
  rw [ham]
  exact hs i m0 hget0 hact0

theorem terminalCheck_ActiveRefInv (cfg : Config) (nowMs : Int) (s : GameState)
    (hs : ActiveRefInv s) : ActiveRefInv (terminalCheck cfg nowMs s) := by
  intro i m hget hact
  rw [(terminalCheck_fields cfg nowMs s).1] at hget
  rw [(terminalCheck_fields cfg nowMs s).2.2.2.1]
  exact hs i m hget hact

theorem deactivateActive_length (s : GameState) :
    (deactivateActive s).length = s.moles.length := by
  unfold deactivateActive
  cases s.active_mole with
  | none => rfl
  | some o => exact listModify_length _ _ _

theorem deactivateActive_get (s : GameState) (j : Nat) :
    (deactivateActive s)[j]? =
      if s.active_mole = some j then (s.moles[j]?).map Mole.deactivate
      else s.moles[j]? := by
  unfold deactivateActive
  cases ham : s.active_mole with
  | none => rw [if_neg (by simp)]
  | some o =>
    rw [getElem?_listModify]
    by_cases hjo : j = o
    · rw [if_pos hjo, if_pos (by rw [hjo])]
    · rw [if_neg hjo, if_neg (by simp; intro h; exact hjo h.symm)]

theorem spawn_new_mole_moles (cfg : Config) (nowMs : Int) (choice : Nat)
    (s : GameState) :
    (spawn_new_mole cfg nowMs choice s).moles =
      listModify
        (fun m => Mole.activate { m with visible_ms := cfg.mole_visible_ms } nowMs)
        choice (deactivateActive s) := rfl

theorem spawn_new_mole_ActiveRefInv (cfg : Config) (nowMs : Int) (choice : Nat)
    (s : GameState) (hs : ActiveRefInv s) :
    ActiveRefInv (spawn_new_mole cfg nowMs choice s) := by
  intro i m hget hact
  show (some choice : Option Nat) = some i
  by_cases hic : i = choice
  · rw [hic]
  · exfalso
    have hget' : (deactivateActive s)[i]? = some m := by
      have h := hget
      rw [spawn_new_mole_moles, getElem?_listModify, if_neg hic] at h
      exact h
    rw [deactivateActive_get] at hget'
    by_cases hsj : s.active_mole = some i
    · rw [if_pos hsj] at hget'
      cases hl : s.moles[i]? with
      | none => rw [hl] at hget'; exact Option.noConfusion hget'
      | some m0 =>
        rw [hl] at hget'
        simp only [Option.map_some'] at hget'
        injection hget' with hm
        rw [← hm] at hact
        exact Bool.noConfusion hact
    · rw [if_neg hsj] at hget'
      exact hsj (hs i m hget' hact)

theorem spawnPhase_ActiveRefInv (cfg : Config) (nowMs : Int) (choice : Nat)
    (s : GameState) (hs : ActiveRefInv s) :
    ActiveRefInv (spawnPhase cfg nowMs choice s) := by
  rcases spawnPhase_cases cfg nowMs choice s with ⟨-, -, h⟩ | ⟨-, h⟩
  · rw [h]
    intro i m hget hact
    exact spawn_new_mole_ActiveRefInv cfg nowMs choice s hs i m hget hact
  · rw [h]; exact hs

/-! ## Helper lemmas: one frame -/

theorem frameStep_cases (cfg : Config) (s : GameState) (inp : FrameInput) :
    (∃ s' : GameState,
      handleEvents cfg (terminalCheck cfg inp.now s) inp.events = .ret s' ∧
      frameStep cfg s inp = .ret s') ∨
    (∃ s' : GameState,
      handleEvents cfg (terminalCheck cfg inp.now s) inp.events = .cont s' ∧
      frameStep cfg s inp =
        .cont (tickPhase inp.now (spawnPhase cfg inp.now inp.choice s'))) := by
  unfold frameStep
  cases h : handleEvents cfg (terminalCheck cfg inp.now s) inp.events with
  | ret s' => left; exact ⟨s', rfl, rfl⟩
  | cont s' => right; exact ⟨s', rfl, rfl⟩

theorem frameStep_state_game_over (cfg : Config) (s : GameState) (inp : FrameInput) :
    ((frameStep cfg s inp).state).game_over =
      (terminalCheck cfg inp.now s).game_over := by
  rcases frameStep_cases cfg s inp with ⟨s', hev, heq⟩ | ⟨s', hev, heq⟩
  · rw [heq]
    have h := (handleEvents_evStep cfg inp.events (terminalCheck cfg inp.now s)).1
    rw [hev] at h
    exact h
  · rw [heq]
    show (tickPhase inp.now (spawnPhase cfg inp.now inp.choice s')).game_over = _
    rw [(tickPhase_fields inp.now _).1, (spawnPhase_fields cfg inp.now inp.choice s').1]
    have h := (handleEvents_evStep cfg inp.events (terminalCheck cfg inp.now s)).1
    rw [hev] at h
    exact h

theorem frameStep_game_over_mono (cfg : Config) (s : GameState) (inp : FrameInput)
    (h : s.game_over = true) : ((frameStep cfg s inp).state).game_over = true := by
  rw [frameStep_state_game_over, terminalCheck_frozen cfg inp.now s h]
  exact h

theorem frameStep_fires (cfg : Config) (s : GameState) (inp : FrameInput)
    (h : remaining_s cfg.game_length_seconds (inp.now - s.start_time_ms) ≤ 0 ∨
      s.lives ≤ 0) :
    ((frameStep cfg s inp).state).game_over = true := by
  rw [frameStep_state_game_over]
  exact terminalCheck_fires cfg inp.now s h

theorem CueInv_of_fields {s t : GameState} (h1 : t.game_over = s.game_over)
    (h2 : t.musicStopped = s.musicStopped)
    (h3 : t.gameOverCuePlays = s.gameOverCuePlays) (h : CueInv s) : CueInv t :=
  ⟨by rw [h3, h1]; exact h.1, by rw [h2, h1]; exact h.2⟩

theorem frameStep_CueInv (cfg : Config) (s : GameState) (inp : FrameInput)
    (h : CueInv s) : CueInv ((frameStep cfg s inp).state) := by
  have h1 : CueInv (terminalCheck cfg inp.now s) := terminalCheck_CueInv cfg inp.now s h
  rcases frameStep_cases cfg s inp with ⟨s', hev, heq⟩ | ⟨s', hev, heq⟩
  · rw [heq]
    have hev' := handleEvents_evStep cfg inp.events (terminalCheck cfg inp.now s)
    rw [hev] at hev'
    exact CueInv_of_fields hev'.1 hev'.2.2.2.2.1 hev'.2.2.2.2.2.1 h1
  · rw [heq]
    have hev' := handleEvents_evStep cfg inp.events (terminalCheck cfg inp.now s)
    rw [hev] at hev'
    have h2 : CueInv s' := CueInv_of_fields hev'.1 hev'.2.2.2.2.1 hev'.2.2.2.2.2.1 h1
    have h3 : CueInv (spawnPhase cfg inp.now inp.choice s') :=
      CueInv_of_fields (spawnPhase_fields cfg inp.now inp.choice s').1
        (spawnPhase_fields cfg inp.now inp.choice s').2.2.2.1
        (spawnPhase_fields cfg inp.now inp.choice s').2.2.2.2.1 h2
    exact CueInv_of_fields (tickPhase_fields inp.now _).1
      (tickPhase_fields inp.now _).2.2.2.2.1
      (tickPhase_fields inp.now _).2.2.2.2.2.1 h3

theorem frameStep_lives_nonneg (cfg : Config) (s : GameState) (inp : FrameInput)
    (h0 : 0 ≤ s.lives) (hp : pressCount inp.events ≤ 1) :
    0 ≤ ((frameStep cfg s inp).state).lives := by
  have hl1 : (terminalCheck cfg inp.now s).lives = s.lives :=
    (terminalCheck_fields cfg inp.now s).2.1
  rcases frameStep_cases cfg s inp with ⟨s', hev, heq⟩ | ⟨s', hev, heq⟩ <;>
  [skip; skip] <;> {
    have key : 0 ≤ s'.lives := by
      cases hgo : (terminalCheck cfg inp.now s).game_over with
      | true =>
        have hfr := handleEvents_frozen cfg inp.events (terminalCheck cfg inp.now s) hgo
        rw [hev] at hfr
        have : s'.lives = s.lives := by
          rw [show s' = (terminalCheck cfg inp.now s) from hfr, hl1]
        omega
      | false =>
        have hlpos : 1 ≤ s.lives := by
          by_contra hx
          have hle : s.lives ≤ 0 := by omega
          have := terminalCheck_fires cfg inp.now s (Or.inr hle)
          rw [hgo] at this
          exact Bool.noConfusion this
        have hlb := handleEvents_lives_lb cfg inp.events (terminalCheck cfg inp.now s)
        rw [hev] at hlb
        rw [hl1] at hlb
        have hlb' : s.lives - (pressCount inp.events : Int) ≤ s'.lives := hlb
        omega
    rw [heq]
    first
    | exact key
    | { show 0 ≤ (tickPhase inp.now (spawnPhase cfg inp.now inp.choice s')).lives
        rw [(tickPhase_fields inp.now _).2.1,
          (spawnPhase_fields cfg inp.now inp.choice s').2.1]
        exact key } }

theorem frameStep_ActiveRefInv (cfg : Config) (s : GameState) (inp : FrameInput)
    (hs : ActiveRefInv s) : ActiveRefInv ((frameStep cfg s inp).state) := by
  have h1 := terminalCheck_ActiveRefInv cfg inp.now s hs
  rcases frameStep_cases cfg s inp with ⟨s', hev, heq⟩ | ⟨s', hev, heq⟩
  · rw [heq]
    have hev' := handleEvents_evStep cfg inp.events (terminalCheck cfg inp.now s)
    rw [hev] at hev'
    exact ActiveRefInv_of_evStep hev' h1
  · rw [heq]
    have hev' := handleEvents_evStep cfg inp.events (terminalCheck cfg inp.now s)
    rw [hev] at hev'
    have h2 : ActiveRefInv s' := ActiveRefInv_of_evStep hev' h1
    have h3 := spawnPhase_ActiveRefInv cfg inp.now inp.choice s' h2
    exact ActiveRefInv_of_evStep (tickPhase_evStep inp.now _) h3

/-! ## Helper lemmas: whole runs -/

theorem runFrames_game_over_mono (cfg : Config) (frames : List FrameInput) :
    ∀ s : GameState, s.game_over = true →
      ((runFrames cfg s frames).state).game_over = true := by
  induction frames with
  | nil => intro s h; exact h
  | cons f fs ih =>
    intro s h
    rw [runFrames]
    cases hstep : frameStep cfg s f with
    | ret s' =>
      have hm := frameStep_game_over_mono cfg s f h
      rw [hstep] at hm
      exact hm
    | cont s' =>
      have hm := frameStep_game_over_mono cfg s f h
      rw [hstep] at hm
      exact ih s' hm

theorem runFrames_CueInv (cfg : Config) (frames : List FrameInput) :
    ∀ s : GameState, CueInv s → CueInv ((runFrames cfg s frames).state) := by
  induction frames with
  | nil => intro s h; exact h
  | cons f fs ih =>
    intro s h
    rw [runFrames]
    cases hstep : frameStep cfg s f with
    | ret s' =>
      have hm := frameStep_CueInv cfg s f h
      rw [hstep] at hm
      exact hm
    | cont s' =>
      have hm := frameStep_CueInv cfg s f h
      rw [hstep] at hm
      exact ih s' hm

theorem runFrames_lives_nonneg (cfg : Config) (frames : List FrameInput)
    (hp : ∀ f ∈ frames, pressCount f.events ≤ 1) :
    ∀ s : GameState, 0 ≤ s.lives → 0 ≤ ((runFrames cfg s frames).state).lives := by
  induction frames with
  | nil => intro s h; exact h
  | cons f fs ih =>
    intro s h
    rw [runFrames]
    have hpf : pressCount f.events ≤ 1 := hp f (by simp)
    have hps : ∀ g ∈ fs, pressCount g.events ≤ 1 := fun g hg => hp g (by simp [hg])
    cases hstep : frameStep cfg s f with
    | ret s' =>
      have hm := frameStep_lives_nonneg cfg s f h hpf
      rw [hstep] at hm
      exact hm
    | cont s' =>
      have hm := frameStep_lives_nonneg cfg s f h hpf
      rw [hstep] at hm
      exact ih hps s' hm

theorem runFrames_ActiveRefInv (cfg : Config) (frames : List FrameInput) :
    ∀ s : GameState, ActiveRefInv s →
      ActiveRefInv ((runFrames cfg s frames).state) := by
  induction frames with
  | nil => intro s h; exact h
  | cons f fs ih =>
    intro s h
    rw [runFrames]
    cases hstep : frameStep cfg s f with
    | ret s' =>
      have hm := frameStep_ActiveRefInv cfg s f h
      rw [hstep] at hm
      exact hm
    | cont s' =>
      have hm := frameStep_ActiveRefInv cfg s f h
      rw [hstep] at hm
      exact ih s' hm

/-! ## Claim C1 -/

/-- Claim C1 as stated is false on the code: `lives -= 1` has no floor,
so four miss clicks in a single frame's event batch drive `lives` from
its initial 3 to -1. -/
theorem C1_counterexample :
    ((runFrames cfgEasy sInit
      [⟨100, [GEvent.mouseDown 400 300, GEvent.mouseDown 400 300,
              GEvent.mouseDown 400 300, GEvent.mouseDown 400 300], 0⟩]).state).lives
      = -1 ∧
    ((runFrames cfgEasy sInit
      [⟨100, [GEvent.mouseDown 400 300, GEvent.mouseDown 400 300,
              GEvent.mouseDown 400 300, GEvent.mouseDown 400 300], 0⟩]).state).lives
      < 0 := by
  decide

/-- Claim C1, amended: a miss click while Running decrements `lives`
with no floor, so `lives` can go below 0 when several miss clicks are
processed within one frame's event batch; but whenever every frame's
event batch contains at most one primary press, `lives` never goes
below 0, because the terminal check that runs before each frame's input
stops further decrements once `lives ≤ 0`. -/
theorem C1_lives_floored_single_press (cfg : Config) (startMs visibleMs : Int)
    (frames : List FrameInput) (hp : ∀ f ∈ frames, pressCount f.events ≤ 1) :
    0 ≤ ((runFrames cfg (initState (initialMoles visibleMs) startMs)
      frames).state).lives :=
  runFrames_lives_nonneg cfg frames hp _ (by show (0 : Int) ≤ 3; omega)

theorem C1_witness :
    0 ≤ ((runFrames cfgEasy (initState (initialMoles 1200) 0)
      [⟨100, [GEvent.mouseDown 400 300], 0⟩]).state).lives :=
  C1_lives_floored_single_press cfgEasy 0 1200
    [⟨100, [GEvent.mouseDown 400 300], 0⟩] (by decide)

/-! ## Claim C2 -/

/-- Claim C2 as stated is false on the code: after a mole is hit,
`active_mole` is not cleared, so it references a Target whose `active`
flag is `false`.  Concretely: spawn mole 4 at t = 1000, hit it at
t = 1100; afterwards `active_mole` is still `some 4` while mole 4 is
inactive. -/
theorem C2_counterexample :
    ((runFrames cfgEasy sInit
      [⟨1000, [], 4⟩, ⟨1100, [GEvent.mouseDown 400 299], 0⟩]).state).active_mole
      = some 4 ∧
    (((runFrames cfgEasy sInit
      [⟨1000, [], 4⟩, ⟨1100, [GEvent.mouseDown 400 299], 0⟩]).state).moles[4]?).map
        (fun m => m.active) = some false := by
  decide

/-- Claim C2, amended: at every frame at most one Target has
`active == true`, and any Target with `active == true` is exactly the
one referenced by `active_mole`; but `active_mole` is not cleared on a
hit or on expiry, so it may reference a Target whose `active` flag is
`false` until the next spawn redirects it. -/
theorem C2_at_most_one_active (cfg : Config) (startMs visibleMs : Int)
    (frames : List FrameInput) :
    (∀ (i j : Nat) (mi mj : Mole),
      ((runFrames cfg (initState (initialMoles visibleMs) startMs)
        frames).state).moles[i]? = some mi →
      ((runFrames cfg (initState (initialMoles visibleMs) startMs)
        frames).state).moles[j]? = some mj →
      mi.active = true → mj.active = true → i = j) ∧
    (∀ (i : Nat) (m : Mole),
      ((runFrames cfg (initState (initialMoles visibleMs) startMs)
        frames).state).moles[i]? = some m → m.active = true →
      ((runFrames cfg (initState (initialMoles visibleMs) startMs)
        frames).state).active_mole = some i) := by
  have hinit : ActiveRefInv (initState (initialMoles visibleMs) startMs) := by
    intro i m hget hact
    exfalso
    have hget' : (initialMoles visibleMs)[i]? = some m := hget
    unfold initialMoles at hget'
    rw [List.getElem?_map] at hget'
    cases hl : create_holes.1[i]? with
    | none => rw [hl] at hget'; exact Option.noConfusion hget'
    | some p =>
      rw [hl] at hget'
      simp only [Option.map_some'] at hget'
      injection hget' with hm
      rw [← hm] at hact
      exact Bool.noConfusion hact
  have h := runFrames_ActiveRefInv cfg frames _ hinit
  refine ⟨?_, h⟩
  intro i j mi mj hi hj hai haj
  have h1 := h i mi hi hai
  have h2 := h j mj hj haj
  rw [h1] at h2
  injection h2

theorem C2_witness :
    ((runFrames cfgEasy (initState (initialMoles 1200) 0)
      [⟨1000, [], 4⟩]).state).active_mole = some 4 :=
  (C2_at_most_one_active cfgEasy 0 1200 [⟨1000, [], 4⟩]).2 4 mole4Active
    (by decide) rfl

/-! ## Claim C3 -/

/-- Claim C3 as stated is false on the code: the difficulty table is
indexed with plain `DIFFICULTIES[difficulty_name]`, which raises
`KeyError` for a name outside Easy/Medium/Hard, so the session does not
start. -/
theorem C3_counterexample :
    (sessionStart "Insane" "Default").isSome = false ∧
    DIFFICULTIES_find "Insane" = none := by
  decide

/-- Claim C3, amended: an unknown theme name resolves to the Default
skin and the theme lookup never fails, but the difficulty lookup is a
plain dict indexing that raises `KeyError` on unknown names, so the
session starts successfully exactly when the difficulty name is one of
Easy, Medium or Hard — for every theme name. -/
theorem C3_lookup_defaults (d t : String) :
    ((sessionStart d t).isSome = true ↔ (d = "Easy" ∨ d = "Medium" ∨ d = "Hard")) ∧
    (THEMES_find t = none → THEMES_get t = themeDefault) ∧
    (∀ init : SessionInit, sessionStart d t = some init →
      init.theme = THEMES_get t) := by
  refine ⟨?_, ?_, ?_⟩
  · unfold sessionStart
    cases hd : DIFFICULTIES_find d with
    | none =>
      simp only [Option.isSome_none, Bool.false_eq_true, false_iff]
      intro hx
      unfold DIFFICULTIES_find at hd
      rcases hx with rfl | rfl | rfl <;> simp at hd
    | some p =>
      simp only [Option.isSome_some, true_iff]
      unfold DIFFICULTIES_find at hd
      split_ifs at hd with h1 h2 h3
      · exact Or.inl h1
      · exact Or.inr (Or.inl h2)
      · exact Or.inr (Or.inr h3)
  · intro h
    unfold THEMES_get
    rw [h]
    rfl
  · intro init hinit
    unfold sessionStart at hinit
    cases hd : DIFFICULTIES_find d with
    | none => rw [hd] at hinit; exact Option.noConfusion hinit
    | some p =>
      rw [hd] at hinit
      injection hinit with h
      rw [← h]

theorem C3_witness :
    (sessionStart "Hard" "Space").isSome = true ∧
    THEMES_get "Space" = themeDefault := by
  have h := C3_lookup_defaults "Hard" "Space"
  exact ⟨h.1.mpr (Or.inr (Or.inr rfl)), h.2.1 (by decide)⟩

/-! ## Claim C4 -/

/-- Claim C4 as stated is false on the code: `int()` truncates the
remaining time, so with the Easy session length of 30 s and an elapsed
time of 29.5 s (29500 ms, strictly less than 30 s) the displayed
remaining time is already 0 and the time-based terminal condition
fires. -/
theorem C4_counterexample :
    remaining_s 30 29500 = 0 ∧ (29500 : Int) < 30 * 1000 ∧
    (terminalCheck cfgEasy 29500 sInit).game_over = true := by
  decide

/-- Claim C4, amended: the code computes
`remaining_s = max(0, int(session_length_s − elapsed_s))`, where
`int()` truncates toward zero; consequently `remaining_s` is
nonnegative, and it is strictly positive iff the elapsed milliseconds
are at most `1000 · (session_length_s − 1)` — i.e. the time-based
terminal condition can fire while the elapsed time is still strictly
less than `session_length_s` (by up to one second). -/
theorem C4_remaining_truncated (L d : Int) :
    0 ≤ remaining_s L d ∧ (0 < remaining_s L d ↔ d ≤ 1000 * (L - 1)) := by
  unfold remaining_s truncTowardZero
  simp only [show (1000 : Int).toNat = 1000 from rfl]
  constructor
  · exact le_max_left 0 _
  · rw [lt_max_iff]
    by_cases h : 0 ≤ 1000 * L - d
    · rw [if_pos h]
      constructor
      · rintro (h0 | h0) <;> omega
      · intro h0; right; omega
    · rw [if_neg h]
      constructor
      · rintro (h0 | h0) <;> omega
      · intro h0; exact absurd (by omega : (0 : Int) ≤ 1000 * L - d) h

theorem C4_witness :
    0 ≤ remaining_s 30 29500 ∧
    (0 < remaining_s 30 29500 ↔ (29500 : Int) ≤ 1000 * (30 - 1)) :=
  C4_remaining_truncated 30 29500

/-! ## Claim C5 -/

/-- Claim C5: the GameOver transition fires exactly once per session.
Along any run from the initial session state, the game-over cue has
played exactly once iff the state is GameOver, and the ambient music
has been stopped iff the state is GameOver; the terminal condition is
evaluated at the top of the frame, before input processing, so whenever
`remaining ≤ 0 ∨ lives ≤ 0` holds at frame start the frame ends in
GameOver regardless of its events; and GameOver is absorbing — no later
frame leaves it. -/
theorem C5_terminal_once (cfg : Config) (startMs visibleMs : Int)
    (frames : List FrameInput) :
    (((runFrames cfg (initState (initialMoles visibleMs) startMs)
        frames).state).gameOverCuePlays =
      if ((runFrames cfg (initState (initialMoles visibleMs) startMs)
        frames).state).game_over then 1 else 0) ∧
    (((runFrames cfg (initState (initialMoles visibleMs) startMs)
        frames).state).musicStopped =
      ((runFrames cfg (initState (initialMoles visibleMs) startMs)
        frames).state).game_over) ∧
    (∀ (s : GameState) (inp : FrameInput), s.game_over = true →
      ((frameStep cfg s inp).state).game_over = true) ∧
    (∀ (s : GameState) (inp : FrameInput),
      remaining_s cfg.game_length_seconds (inp.now - s.start_time_ms) ≤ 0 ∨
        s.lives ≤ 0 →
      ((frameStep cfg s inp).state).game_over = true) ∧
    (∀ (s : GameState) (frames2 : List FrameInput), s.game_over = true →
      ((runFrames cfg s frames2).state).game_over = true) := by
  have hcue := runFrames_CueInv cfg frames
    (initState (initialMoles visibleMs) startMs) ⟨rfl, rfl⟩
  exact ⟨hcue.1, hcue.2, fun s inp h => frameStep_game_over_mono cfg s inp h,
    fun s inp h => frameStep_fires cfg s inp h,
    fun s fr2 h => runFrames_game_over_mono cfg fr2 s h⟩

theorem C5_witness :
    ((frameStep cfgEasy sGameOverEx ⟨31000, [], 0⟩).state).game_over = true ∧
    ((frameStep cfgEasy sInit ⟨31000, [], 0⟩).state).game_over = true := by
  have h := C5_terminal_once cfgEasy 0 1200 []
  exact ⟨h.2.2.1 sGameOverEx ⟨31000, [], 0⟩ rfl,
    h.2.2.2.1 sInit ⟨31000, [], 0⟩ (Or.inl (by decide))⟩

/-! ## Claim C6 -/

theorem frameStep_no_spawn_noNewActive (cfg : Config) (s : GameState)
    (inp : FrameInput)
    (ht : ¬ (inp.now - s.last_spawn_time > cfg.spawn_interval_ms)) :
    noNewActive s.moles (((frameStep cfg s inp).state).moles) := by
  have hms : (terminalCheck cfg inp.now s).moles = s.moles :=
    (terminalCheck_fields cfg inp.now s).1
  have hls : (terminalCheck cfg inp.now s).last_spawn_time = s.last_spawn_time :=
    (terminalCheck_fields cfg inp.now s).2.2.2.2.1
  rcases frameStep_cases cfg s inp with ⟨s', hev, heq⟩ | ⟨s', hev, heq⟩
  · rw [heq]
    have hev' := handleEvents_evStep cfg inp.events (terminalCheck cfg inp.now s)
    rw [hev] at hev'
    have h9 := hev'.2.2.2.2.2.2.2.2
    rw [hms] at h9
    exact h9
  · rw [heq]
    have hev' := handleEvents_evStep cfg inp.events (terminalCheck cfg inp.now s)
    rw [hev] at hev'
    have h9 := hev'.2.2.2.2.2.2.2.2
    rw [hms] at h9
    have hsp : spawnPhase cfg inp.now inp.choice s' = s' := by
      rcases spawnPhase_cases cfg inp.now inp.choice s' with ⟨-, htime, -⟩ | ⟨-, hx⟩
      · exfalso
        apply ht
        have hlst : s'.last_spawn_time = s.last_spawn_time := by
          have h3 : s'.last_spawn_time =
              (terminalCheck cfg inp.now s).last_spawn_time := hev'.2.2.1
          rw [h3, hls]
        rw [← hlst]
        exact htime
      · exact hx
    show noNewActive s.moles
      ((tickPhase inp.now (spawnPhase cfg inp.now inp.choice s')).moles)
    rw [hsp]
    exact noNewActive_trans h9 (noNewActive_map_update s'.moles inp.now)

/-- Claim C6: while Running, if `now − last_spawn_time > spawn_interval_ms`
then the spawn runs: it records `last_spawn_time = now`, makes the
chosen mole (any index `c` of the nine may be chosen by
`random.choice`, including the currently active one — repeats allowed)
the `active_mole`, activates it at `now` with the difficulty's visible
duration, deactivates the previously active mole if it is a different
one, and leaves every other mole untouched; if the guard fails the
spawn phase is the identity, and no mole at all is activated during
such a frame. -/
theorem C6_spawn_behaviour (cfg : Config) (s : GameState) (nowMs : Int) (c : Nat)
    (hc : c < s.moles.length) :
    (s.game_over = false → nowMs - s.last_spawn_time > cfg.spawn_interval_ms →
      (spawnPhase cfg nowMs c s).last_spawn_time = nowMs ∧
      (spawnPhase cfg nowMs c s).active_mole = some c ∧
      ((spawnPhase cfg nowMs c s).moles[c]?).map
        (fun m => (m.active, m.spawn_time, m.visible_ms)) =
        some (true, nowMs, cfg.mole_visible_ms) ∧
      (∀ j : Nat, s.active_mole = some j → j ≠ c →
        ((spawnPhase cfg nowMs c s).moles[j]?).map (fun m => m.active) =
          (s.moles[j]?).map (fun _ => false)) ∧
      (∀ j : Nat, j ≠ c → s.active_mole ≠ some j →
        (spawnPhase cfg nowMs c s).moles[j]? = s.moles[j]?)) ∧
    (¬ (s.game_over = false ∧ nowMs - s.last_spawn_time > cfg.spawn_interval_ms) →
      spawnPhase cfg nowMs c s = s) ∧
    (∀ inp : FrameInput, ¬ (inp.now - s.last_spawn_time > cfg.spawn_interval_ms) →
      noNewActive s.moles (((frameStep cfg s inp).state).moles)) := by
  refine ⟨?_, ?_, ?_⟩
  · intro hgo htime
    rcases spawnPhase_cases cfg nowMs c s with ⟨-, -, heq⟩ | ⟨hoff, -⟩
    · rw [heq]
      refine ⟨rfl, rfl, ?_, ?_, ?_⟩
      · show ((spawn_new_mole cfg nowMs c s).moles[c]?).map
          (fun m => (m.active, m.spawn_time, m.visible_ms)) =
          some (true, nowMs, cfg.mole_visible_ms)
        rw [spawn_new_mole_moles, getElem?_listModify, if_pos rfl]
        have hlen : c < (deactivateActive s).length := by
          rw [deactivateActive_length]; exact hc
        rw [List.getElem?_eq_getElem hlen]
        simp [Mole.activate]
      · intro j hj hjc
        show ((spawn_new_mole cfg nowMs c s).moles[j]?).map (fun m => m.active) =
          (s.moles[j]?).map (fun _ => false)
        rw [spawn_new_mole_moles, getElem?_listModify, if_neg hjc,
          deactivateActive_get, if_pos hj]
        cases s.moles[j]? <;> simp [Mole.deactivate]
      · intro j hjc hj
        show (spawn_new_mole cfg nowMs c s).moles[j]? = s.moles[j]?
        rw [spawn_new_mole_moles, getElem?_listModify, if_neg hjc,
          deactivateActive_get, if_neg hj]
    · exfalso
      rcases hoff with h | h
      · rw [hgo] at h; exact Bool.noConfusion h
      · omega
  · intro hn
    rcases spawnPhase_cases cfg nowMs c s with ⟨h1, h2, -⟩ | ⟨-, hx⟩
    · exact absurd ⟨h1, h2⟩ hn
    · exact hx
  · exact fun inp ht => frameStep_no_spawn_noNewActive cfg s inp ht

theorem C6_witness :
    (spawnPhase cfgEasy 1000 4 sInit).last_spawn_time = 1000 ∧
    (spawnPhase cfgEasy 1000 4 sInit).active_mole = some 4 ∧
    ((spawnPhase cfgEasy 1000 4 sInit).moles[4]?).map
      (fun m => (m.active, m.spawn_time, m.visible_ms)) = some (true, 1000, 1200) ∧
    spawnPhase cfgEasy 100 0 sInit = sInit := by
  have h1 := C6_spawn_behaviour cfgEasy sInit 1000 4 (by decide)
  have h2 := C6_spawn_behaviour cfgEasy sInit 100 0 (by decide)
  have hx := h1.1 rfl (by decide)
  exact ⟨hx.1, hx.2.1, hx.2.2.1, h2.2.1 (by decide)⟩

/-! ## Claim C7 -/

/-- Claim C7: a primary press while Running that is not on the Exit
control is tested against the moles in creation order; on the first
active mole whose rectangle contains the point, the score is
incremented by exactly 1, that mole is deactivated and the hit cue
plays; if no active mole contains the point, a life is lost. -/
theorem C7_hit_processing (cfg : Config) (s : GameState) (px py : Int)
    (hexit : (compute_exit_button_rect cfg).collidepoint px py = false)
    (hrun : s.game_over = false) :
    (∀ i : Nat, hitScan px py s.moles = some i →
      (∃ m : Mole, s.moles[i]? = some m ∧ m.active = true ∧
        (Mole.rect m).collidepoint px py = true) ∧
      (∀ (j : Nat) (m : Mole), j < i → s.moles[j]? = some m →
        (m.active && (Mole.rect m).collidepoint px py) = false) ∧
      handleMouseDown cfg s px py =
        .cont { s with score := s.score + 1
                       moles := listModify Mole.deactivate i s.moles
                       hitCuePlays := s.hitCuePlays + 1 }) ∧
    (hitScan px py s.moles = none →
      (∀ (j : Nat) (m : Mole), s.moles[j]? = some m →
        (m.active && (Mole.rect m).collidepoint px py) = false) ∧
      handleMouseDown cfg s px py = .cont { s with lives := s.lives - 1 }) := by
  constructor
  · intro i hscan
    obtain ⟨⟨m, hm, hmb⟩, hmin⟩ := hitScan_some px py s.moles i hscan
    have hmb' := Bool.and_eq_true_iff.mp hmb
    refine ⟨⟨m, hm, hmb'.1, hmb'.2⟩, hmin, ?_⟩
    simp [handleMouseDown, hexit, hrun, hscan]
  · intro hscan
    exact ⟨hitScan_none px py s.moles hscan,
      by simp [handleMouseDown, hexit, hrun, hscan]⟩

theorem C7_witness :
    handleMouseDown cfgEasy sOneActive 400 299 =
      .cont { sOneActive with score := sOneActive.score + 1
                              moles := listModify Mole.deactivate 4 sOneActive.moles
                              hitCuePlays := sOneActive.hitCuePlays + 1 } ∧
    handleMouseDown cfgEasy sOneActive (400 + 10 * 44) 299 =
      .cont { sOneActive with lives := sOneActive.lives - 1 } := by
  have h1 := C7_hit_processing cfgEasy sOneActive 400 299 (by decide) (by decide)
  have h2 := C7_hit_processing cfgEasy sOneActive (400 + 10 * 44) 299
    (by decide) (by decide)
  exact ⟨(h1.1 4 (by decide)).2.2, (h2.2 (by decide)).2⟩

/-! ## Claim C8 -/

/-- Claim C8: `create_holes` is a pure function of the fixed 800×600
window and 3×3 grid; it yields exactly 9 positions, in row-major order
(the explicit list below), all distinct, all strictly inside the window
bounds, with positive radius `⌊min(cell_w, cell_h)/3⌋ = ⌊min(200,133)/3⌋
= 44`, the grid being inset by margins `800/8 = 100` and `600/6 = 100`. -/
theorem C8_layout :
    create_holes.1.length = 9 ∧
    create_holes.1 = [(200, 166), (400, 166), (600, 166),
                      (200, 299), (400, 299), (600, 299),
                      (200, 432), (400, 432), (600, 432)] ∧
    create_holes.1.Nodup ∧
    (∀ p ∈ create_holes.1, 0 < p.1 ∧ p.1 < WINDOW_WIDTH ∧
      0 < p.2 ∧ p.2 < WINDOW_HEIGHT) ∧
    create_holes.2 = min 200 133 / 3 ∧
    create_holes.2 = 44 ∧
    0 < create_holes.2 := by
  decide

/-! ## Claim C9 -/

/-- Claim C9: an `ESC` key press returns control to the menu in every
session state — the key handler in the event loop is not guarded by
`game_over` — so a Running session (terminal condition not fired this
frame) ends immediately on `ESC`, with the state returned unchanged. -/
theorem C9_escape_returns (cfg : Config) (s : GameState) (nowMs : Int)
    (choice : Nat) (rest : List GEvent) (hrun : s.game_over = false)
    (hcond : ¬ (remaining_s cfg.game_length_seconds (nowMs - s.start_time_ms) ≤ 0 ∨
      s.lives ≤ 0)) :
    frameStep cfg s ⟨nowMs, GEvent.keyEscape :: rest, choice⟩ = .ret s ∧
    (∀ (s' : GameState) (evs : List GEvent),
      handleEvents cfg s' (GEvent.keyEscape :: evs) = .ret s') := by
  have hTC : terminalCheck cfg nowMs s = s := by
    unfold terminalCheck
    rw [if_neg]
    intro hx
    exact hcond hx.1
  constructor
  · unfold frameStep
    rw [hTC]
    rfl
  · intro s' evs
    rfl

theorem C9_witness :
    frameStep cfgEasy sInit ⟨100, [GEvent.keyEscape], 0⟩ = .ret sInit :=
  (C9_escape_returns cfgEasy sInit 100 0 [] rfl (by decide)).1

/-! ## Claim C10 -/

/-- Claim C10 as stated is false on the code: `Rect.collidepoint`
excludes the right and bottom edges, so a press offset exactly
`+radius` horizontally from the centre (offset magnitude equal to the
radius, hence "at most radius") is NOT a hit — it is processed as a
miss that costs a life. -/
theorem C10_counterexample :
    (Mole.rect mole4Active).collidepoint (400 + 44) 299 = false ∧
    mole4Active.active = true ∧ mole4Active.posX = 400 ∧
    mole4Active.posY = 299 ∧ mole4Active.base_radius = 44 ∧
    handleMouseDown cfgEasy sOneActive (400 + 44) 299 =
      .cont { sOneActive with lives := sOneActive.lives - 1 } := by
  decide

/-- Claim C10, amended: the hit region is the half-open axis-aligned
square `[x−r, x+r) × [y−r, y+r)`: a press whose offsets from the centre
satisfy `−r ≤ dx < r` and `−r ≤ dy < r` registers on the rectangle —
this includes points whose Euclidean distance from the centre exceeds
`r` (the region is the square, not the inscribed circle), but excludes
points on the right or bottom edge, where an offset magnitude equal to
`r` fails. -/
theorem C10_hit_region (m : Mole) (px py : Int) :
    ((Mole.rect m).collidepoint px py = true ↔
      (m.posX - m.base_radius ≤ px ∧ px < m.posX + m.base_radius ∧
       m.posY - m.base_radius ≤ py ∧ py < m.posY + m.base_radius)) ∧
    ((Mole.rect mole4Active).collidepoint 440 339 = true ∧
      (440 - mole4Active.posX) ^ 2 + (339 - mole4Active.posY) ^ 2 >
        mole4Active.base_radius ^ 2) := by
  constructor
  · simp only [Mole.rect, Rect.collidepoint, Bool.and_eq_true, decide_eq_true_eq]
    omega
  · constructor <;> decide

theorem C10_witness :
    (Mole.rect mole4Active).collidepoint 420 310 = true ↔
      (mole4Active.posX - mole4Active.base_radius ≤ 420 ∧
       420 < mole4Active.posX + mole4Active.base_radius ∧
       mole4Active.posY - mole4Active.base_radius ≤ 310 ∧
       310 < mole4Active.posY + mole4Active.base_radius) :=
  (C10_hit_region mole4Active 420 310).1

end MoleAttack
